import Mathlib

/-
Verification of the reconciliation core of the manageiq ansible modules
(library/manageiq_provider.py, plus the custom-attribute reconciler known
only through tests/test_custom_attributes.py and the design document).

The embedding models Python JSON payload values by the type JVal, Python
string-keyed dicts by association lists with duplicate-free keys (Dict),
and the external HTTP client by explicit inputs: a fetched provider record,
time-indexed validation responses, and recorded write calls.
-/

set_option maxRecDepth 20000

namespace ManageIQ

/-- Scalar JSON payload values handled by the module: Python None, strings and integers. -/
inductive JVal where
  | null
  | s (v : String)
  | i (v : Int)
deriving DecidableEq, Repr

/-- Python truthiness on JVal: None, the empty string and 0 are falsy. -/
def truthy : JVal → Bool
  | JVal.null => false
  | JVal.s v => !(decide (v = ""))
  | JVal.i n => !(decide (n = 0))

/-- Python `x or None` (line 237: `result.get("provider_region") or None`). -/
def orNone (v : JVal) : JVal :=
  if truthy v then v else JVal.null

/-- A Python dict with string keys, as an association list whose first binding for a key wins. -/
abbrev Dict (α : Type) : Type := List (String × α)

/-- Lookup of a key; `none` models both a missing key and a raised KeyError at use sites. -/
def dlookup {α : Type} : Dict α → String → Option α
  | [], _ => none
  | (k, v) :: rest, q => if k = q then some v else dlookup rest q

/-- Python `k in d`. -/
def containsKey {α : Type} (m : Dict α) (k : String) : Bool :=
  (dlookup m k).isSome

/-- Python `d.keys()`. -/
def keysOf {α : Type} (m : Dict α) : List String :=
  m.map Prod.fst

/-- Python dict assignment `d[k] = v`: replaces the binding in place when the key
exists, appends a new binding otherwise. -/
def insertD {α : Type} (m : Dict α) (k : String) (v : α) : Dict α :=
  if containsKey m k then m.map (fun p => if p.1 = k then (k, v) else p) else m ++ [(k, v)]

/-- Dict built from a binding list where a later binding for a key overrides an earlier
one, as in a Python dict comprehension.  The resulting key list is duplicate-free; the
entry order can differ from Python insertion order, which no lookup, key-set or dict
equality observation can see. -/
def buildMap {α : Type} : List (String × α) → Dict α
  | [] => []
  | (k, v) :: rest =>
    if rest.any (fun p => decide (p.1 = k)) then buildMap rest
    else (k, v) :: buildMap rest

/-- Python dict equality (for dicts with duplicate-free keys): same keys, equal values. -/
def dictEq {α : Type} [DecidableEq α] (a b : Dict α) : Bool :=
  decide (a.length = b.length) && a.all fun p => decide (dlookup b p.1 = some p.2)

/-!  The diff engine (manageiq_provider.py, `ManageIQ.required_updates`). -/

/-- An endpoint record: `role` is accessed by mandatory indexing in the source
(`e["role"]`, `e["endpoint"]["role"]`), hostname and port by `.get`, so a missing
hostname or port is modelled as the value `JVal.null`. -/
structure Endpoint where
  role : String
  hostname : JVal
  port : JVal
deriving DecidableEq, Repr

/-- A desired endpoint as produced by `generate_openshift_endpoint` or
`generate_amazon_endpoint`: the endpoint data plus its authentication type
(`e["authentication"]["authtype"]`). -/
structure DesiredEndpoint where
  endpoint : Endpoint
  authtype : String
deriving DecidableEq, Repr

/-- Line 232: `host_port(endpoint)` builds `{"hostname": ..., "port": ...}` via `.get`. -/
def host_port (e : Endpoint) : Dict JVal :=
  [("hostname", e.hostname), ("port", e.port)]

/-- The provider record fetched with `?attributes=endpoints` (lines 228, 236-238):
its endpoint list, `result["zone_id"]` and `result.get("provider_region")`. -/
structure RemoteProviderData where
  endpoints : List Endpoint
  zone_id : JVal
  provider_region : JVal
deriving DecidableEq, Repr

/-- Line 235: `{e["endpoint"]["role"]: host_port(e["endpoint"]) for e in endpoints}`. -/
def desired_by_role (endpoints : List DesiredEndpoint) : Dict (Dict JVal) :=
  buildMap (endpoints.map fun e => (e.endpoint.role, host_port e.endpoint))

/-- Line 236: `{e["role"]: host_port(e) for e in result["endpoints"]}`. -/
def result_by_role (result : RemoteProviderData) : Dict (Dict JVal) :=
  buildMap (result.endpoints.map fun e => (e.role, host_port e))

/-- A value of the `updated` dict of `required_updates`: either the changed-field
subset of an endpoint (role keys) or a changed scalar (the `zone_id` and
`provider_region` keys inserted on lines 248-251). -/
inductive UpdVal where
  | fields (d : Dict JVal)
  | scalar (v : JVal)
deriving DecidableEq, Repr

/-- The non-empty hash returned by `required_updates` (line 252). -/
structure DiffResult where
  updated : Dict UpdVal
  added : Dict (Dict JVal)
  removed : Dict (Dict JVal)
deriving DecidableEq, Repr

/-- Lines 240-243: the `updated` dict comprehension — for every role present on both
sides with a differing record, the subset of fields absent from or differing in the
current record. -/
def updated_endpoints (desired current : Dict (Dict JVal)) : Dict UpdVal :=
  (desired.filter fun p =>
      containsKey current p.1 && !(dictEq p.2 ((dlookup current p.1).getD []))).map
    fun p => (p.1, UpdVal.fields (p.2.filter fun q =>
      !(containsKey ((dlookup current p.1).getD []) q.1)
        || !(decide (dlookup ((dlookup current p.1).getD []) q.1 = some q.2))))

/-- Lines 244-245: desired roles absent on the current side. -/
def added_endpoints (desired current : Dict (Dict JVal)) : Dict (Dict JVal) :=
  desired.filter fun p => !(containsKey current p.1)

/-- Lines 246-247: current roles absent on the desired side. -/
def removed_endpoints (desired current : Dict (Dict JVal)) : Dict (Dict JVal) :=
  current.filter fun p => !(containsKey desired p.1)

/-- Lines 214-252 (`ManageIQ.required_updates`) with the fetched provider record as
an explicit input; `none` is the empty hash returned on line 239. -/
def required_updates (endpoints : List DesiredEndpoint) (result : RemoteProviderData)
    (zone_id : JVal) (provider_region : JVal) : Option DiffResult :=
  let desired := desired_by_role endpoints
  let current := result_by_role result
  let existing_provider_region := orNone result.provider_region
  if dictEq current desired && decide (result.zone_id = zone_id)
      && decide (existing_provider_region = provider_region) then
    none
  else
    let updated := updated_endpoints desired current
    let added := added_endpoints desired current
    let removed := removed_endpoints desired current
    let updated1 :=
      if !(decide (result.zone_id = zone_id)) then insertD updated "zone_id" (UpdVal.scalar zone_id)
      else updated
    let updated2 :=
      if !(decide (existing_provider_region = provider_region)) then
        insertD updated1 "provider_region" (UpdVal.scalar provider_region)
      else updated1
    some ⟨updated2, added, removed⟩

/-- Key set of the `Added` partition (empty for the empty hash). -/
def diffAddedKeys : Option DiffResult → List String
  | none => []
  | some d => keysOf d.added

/-- Key set of the `Updated` partition (empty for the empty hash). -/
def diffUpdatedKeys : Option DiffResult → List String
  | none => []
  | some d => keysOf d.updated

/-- Key set of the `Removed` partition (empty for the empty hash). -/
def diffRemovedKeys : Option DiffResult → List String
  | none => []
  | some d => keysOf d.removed

/-!  The validation poller (manageiq_provider.py, `verify_authenticaion_validation`).
The per-call result of `auths_validation_details` — the authtype-keyed mapping of
authentication records — is an explicit input, indexed by loop iteration. -/

/-- A validation-record mapping `{auth["authtype"]: auth for auth in auths}` (line 176);
each record is a raw dict so that `.get` and `[...]` accesses keep their Python meaning. -/
abbrev AuthMap : Type := Dict (Dict JVal)

/-- Line 160. -/
def WAIT_TIME : Nat := 5

/-- Line 161. -/
def ITERATIONS : Nat := 10

/-- Python `record.get(key)` with default None. -/
def dget (d : Dict JVal) (k : String) : JVal :=
  (dlookup d k).getD JVal.null

/-- Python `mapping.get(authtype, {})` (line 201). -/
def getRec (m : AuthMap) (t : String) : Dict JVal :=
  (dlookup m t).getD []

/-- Lines 194-199: the validation timestamp pair differs from the old one. -/
def validated (old new : Dict JVal) : Bool :=
  !(decide ((dget old "last_valid_on", dget old "last_invalid_on")
      = (dget new "last_valid_on", dget new "last_invalid_on")))

/-- Lines 201-202: every authtype under test has a changed timestamp pair. -/
def validations_done (old new : AuthMap) (authtypes_to_verify : List String) : Bool :=
  authtypes_to_verify.all fun t => validated (getRec old t) (getRec new t)

/-- The per-authtype `(status, status_details)` pairs of lines 203-205, defined for
responses that contain every authtype under test. -/
def theDetails (new : AuthMap) (authtypes_to_verify : List String) : Dict (JVal × JVal) :=
  buildMap (authtypes_to_verify.map fun t =>
    (t, ((dlookup (getRec new t) "status").getD (JVal.s "Validation in progress"),
         (dlookup (getRec new t) "status_details").getD (JVal.s ""))))

/-- Lines 203-205: the details dict comprehension; it indexes `new_validation_details[t]`
directly, so a response missing an authtype under test raises (modelled as `none`). -/
def mkDetails (new : AuthMap) (authtypes_to_verify : List String) : Option (Dict (JVal × JVal)) :=
  if authtypes_to_verify.all fun t => containsKey new t then
    some (theDetails new authtypes_to_verify)
  else none

/-- Line 207: `any(new_validation_details[t]["status"] not in ("Valid", None) for t in ...)`,
with Python generator short-circuiting; `none` models a raised KeyError. -/
def anyStatusInvalid (new : AuthMap) : List String → Option Bool
  | [] => some false
  | t :: rest =>
    match dlookup new t with
    | none => none
    | some rec_ =>
      match dlookup rec_ "status" with
      | none => none
      | some st =>
        if st ≠ JVal.s "Valid" ∧ st ≠ JVal.null then some true
        else anyStatusInvalid new rest

/-- Line 209: `all(new_validation_details[t]["status"] == "Valid" for t in ...)`, with
short-circuiting; `none` models a raised KeyError. -/
def allStatusValid (new : AuthMap) : List String → Option Bool
  | [] => some true
  | t :: rest =>
    match dlookup new t with
    | none => none
    | some rec_ =>
      match dlookup rec_ "status" with
      | none => none
      | some st =>
        if st = JVal.s "Valid" then allStatusValid new rest
        else some false

/-- The details component of the poller result: the string `"All Valid"` or the
per-authtype `(status, status_details)` map. -/
inductive VDetails where
  | allValid
  | map (d : Dict (JVal × JVal))
deriving DecidableEq, Repr

/-- Outcome of `verify_authenticaion_validation` together with the numbers of
validation fetches issued and of `time.sleep(WAIT_TIME)` calls executed. -/
structure VerifyResult where
  success : Bool
  details : VDetails
  nfetches : Nat
  nsleeps : Nat
deriving DecidableEq, Repr

/-- One-loop body plus recursion of lines 191-212: iteration `i` with `rem + 1`
iterations still to run; `fetches i` is the response of the fetch on line 192 of
iteration `i`.  `none` models an uncaught exception. -/
def verify_from (fetches : Nat → AuthMap) (old : AuthMap) (authtypes_to_verify : List String) :
    Nat → Nat → Option VerifyResult
  | _, 0 => none
  | i, rem + 1 =>
    let new := fetches i
    match mkDetails new authtypes_to_verify with
    | none => none
    | some details =>
      if validations_done old new authtypes_to_verify then
        match anyStatusInvalid new authtypes_to_verify with
        | none => none
        | some true => some ⟨false, VDetails.map details, i + 1, i⟩
        | some false =>
          match allStatusValid new authtypes_to_verify with
          | none => none
          | some true => some ⟨true, VDetails.allValid, i + 1, i⟩
          | some false =>
            if rem = 0 then some ⟨false, VDetails.map details, i + 1, i + 1⟩
            else verify_from fetches old authtypes_to_verify (i + 1) rem
      else
        if rem = 0 then some ⟨false, VDetails.map details, i + 1, i + 1⟩
        else verify_from fetches old authtypes_to_verify (i + 1) rem

/-- Lines 180-212 (`ManageIQ.verify_authenticaion_validation`, source spelling kept):
polls up to ITERATIONS times, sleeping WAIT_TIME after each non-final iteration and
once more before giving up. -/
def verify_authenticaion_validation (fetches : Nat → AuthMap) (old : AuthMap)
    (authtypes_to_verify : List String) : Option VerifyResult :=
  verify_from fetches old authtypes_to_verify 0 ITERATIONS

/-!  The convergence orchestrator (`add_or_update_provider`, `delete_provider`) and the
entity locators.  The remote server is an explicit environment: collection listings,
the per-provider endpoint record, the pre-update validation snapshot, the time-indexed
poll responses, and the id assigned by a create call. -/

/-- A member of `client.collections.zones` (line 291). -/
structure ZoneRec where
  id : JVal
  name : String
deriving DecidableEq, Repr

/-- A member of `client.collections.providers` (line 300). -/
structure ProviderRec where
  id : JVal
  name : String
deriving DecidableEq, Repr

/-- Lines 285-292: id of the first zone with the given name, None otherwise. -/
def find_zone_by_name (zones : List ZoneRec) (zone_name : String) : JVal :=
  match zones.find? (fun z => decide (z.name = zone_name)) with
  | some z => z.id
  | none => JVal.null

/-- Lines 294-301: id of the first provider with the given name, None otherwise. -/
def find_provider_by_name (providers : List ProviderRec) (provider_name : String) : JVal :=
  match providers.find? (fun p => decide (p.name = provider_name)) with
  | some p => p.id
  | none => JVal.null

/-- Lines 155-158. -/
def PROVIDER_TYPES : Dict String :=
  [("openshift-origin", "ManageIQ::Providers::Openshift::ContainerManager"),
   ("openshift-enterprise", "ManageIQ::Providers::OpenshiftEnterprise::ContainerManager"),
   ("amazon", "ManageIQ::Providers::Amazon::CloudManager")]

/-- Line 349: `zone or "default"` on the optional zone parameter string. -/
def zoneNameArg : Option String → String
  | some z => if z = "" then "default" else z
  | none => "default"

/-- A write (POST) call issued against the server. -/
inductive WriteCall where
  | edit (provider_id : JVal) (zone_id : JVal) (endpoints : List DesiredEndpoint) (region : JVal)
  | create (name : String) (type_ : String) (zone_id : JVal) (endpoints : List DesiredEndpoint)
      (region : JVal)
  | delete (provider_id : JVal)
deriving DecidableEq, Repr

/-- Python `repr` of the JVal scalars, as used when a details dict is interpolated
into a message string. -/
def pyReprJVal : JVal → String
  | JVal.null => "None"
  | JVal.s v => "\x27" ++ v ++ "\x27"
  | JVal.i n => toString n

/-- Python `str` of a details value: the bare string `"All Valid"`, or the repr of the
per-authtype dict of `(status, status_details)` tuples. -/
def strDetails : VDetails → String
  | VDetails.allValid => "All Valid"
  | VDetails.map d =>
    "\x7b" ++ String.intercalate ", " (d.map fun p =>
      "\x27" ++ p.1 ++ "\x27: (" ++ pyReprJVal p.2.1 ++ ", " ++ pyReprJVal p.2.2 ++ ")")
      ++ "\x7d"

/-- Result dict of `add_or_update_provider`: the no-change dict of lines 355-356, or
the full dict of lines 380-385 (`updates` is the diff on the update path and Python
None on the create path). -/
inductive ConvergeRes where
  | noop (changed : Bool) (msg : String)
  | done (provider_id : JVal) (changed : Bool) (msg : String) (updates : Option DiffResult)
deriving DecidableEq, Repr

/-- Observable outcome of one `add_or_update_provider` call: its result dict, the
write calls issued, and the authtype list handed to the validation poller (`none`
when the poller was never invoked). -/
structure ConvergeTrace where
  res : ConvergeRes
  writes : List WriteCall
  polled : Option (List String)
deriving DecidableEq, Repr

/-- The remote server as seen by one invocation. -/
structure Env where
  zones : List ZoneRec
  providers : List ProviderRec
  remoteData : JVal → RemoteProviderData
  oldAuth : JVal → AuthMap
  pollAuth : JVal → Nat → AuthMap
  createdId : JVal

/-- Lines 340-385 (`ManageIQ.add_or_update_provider`); `changed` is the initial value
of the instance flag (False for a fresh module run, line 169).  `none` models a
fatal `fail_json` or an uncaught exception. -/
def add_or_update_provider (env : Env) (changed : Bool) (provider_name provider_type : String)
    (endpoints : List DesiredEndpoint) (zone : Option String) (provider_region : JVal) :
    Option ConvergeTrace :=
  let zone_id := find_zone_by_name env.zones (zoneNameArg zone)
  let provider_id := find_provider_by_name env.providers provider_name
  if truthy provider_id then
    match required_updates endpoints (env.remoteData provider_id) zone_id provider_region with
    | none =>
      some ⟨ConvergeRes.noop changed ("Provider " ++ provider_name ++ " already exists"),
        [], none⟩
    | some updates =>
      let old_validation_details := env.oldAuth provider_id
      let writes := [WriteCall.edit provider_id zone_id endpoints provider_region]
      let roles_with_changes := keysOf updates.added ++ keysOf updates.updated
      let authtypes_to_verify :=
        (endpoints.filter fun e => roles_with_changes.contains e.endpoint.role).map
          fun e => e.authtype
      match verify_authenticaion_validation (env.pollAuth provider_id) old_validation_details
          authtypes_to_verify with
      | none => none
      | some vr =>
        let msg :=
          if vr.success then
            "Successful update of " ++ provider_name ++ " provider. Authentication: "
              ++ strDetails vr.details
          else
            "Failed to validate provider " ++ provider_name ++ " after update. Authentication: "
              ++ strDetails vr.details
        some ⟨ConvergeRes.done provider_id true msg (some updates), writes,
          some authtypes_to_verify⟩
  else
    match dlookup PROVIDER_TYPES provider_type with
    | none => none
    | some type_full =>
      let new_id := env.createdId
      let writes := [WriteCall.create provider_name type_full zone_id endpoints provider_region]
      let roles_with_changes := endpoints.map fun e => e.endpoint.role
      let authtypes_to_verify :=
        (endpoints.filter fun e => roles_with_changes.contains e.endpoint.role).map
          fun e => e.authtype
      match verify_authenticaion_validation (env.pollAuth new_id) [] authtypes_to_verify with
      | none => none
      | some vr =>
        let msg :=
          if vr.success then
            "Successful addition of " ++ provider_name ++ " provider. Authentication: "
              ++ strDetails vr.details
          else
            "Failed to validate provider " ++ provider_name ++ " after addition. Authentication: "
              ++ strDetails vr.details
        some ⟨ConvergeRes.done new_id true msg none, writes, some authtypes_to_verify⟩

/-- The parsed response of a delete POST (lines 329-334). -/
structure DeleteResponse where
  success : Bool
  task_id : JVal
  message : String
deriving DecidableEq, Repr

/-- Result dict of `delete_provider` (lines 332, 334, 338); `api_error` is present
only in the unsuccessful-response dict. -/
structure DeleteOutcome where
  task_id : JVal
  changed : Bool
  msg : String
  api_error : Option DeleteResponse
deriving DecidableEq, Repr

/-- Lines 317-338 (`ManageIQ.delete_provider`); `resp` is the response the server
would give to the delete POST (`none` a transport failure, turned into `fail_json`),
and `changed` the instance flag (False for a fresh run).  The second component
records the write calls issued. -/
def delete_provider (providers : List ProviderRec) (resp : Option DeleteResponse)
    (changed : Bool) (provider_name : String) : Option (DeleteOutcome × List WriteCall) :=
  let provider_id := find_provider_by_name providers provider_name
  if truthy provider_id then
    match resp with
    | none => none
    | some r =>
      if r.success then
        some (⟨r.task_id, true, r.message, none⟩, [WriteCall.delete provider_id])
      else
        some (⟨JVal.null, changed, "Failed to delete " ++ provider_name ++ " provider",
          some r⟩, [WriteCall.delete provider_id])
  else
    some (⟨JVal.null, changed, "Provider " ++ provider_name ++ " doesn\x27t exist", none⟩, [])

/-!  The custom-attribute reconciler.  Its module is not part of the source tree here
(only tests/test_custom_attributes.py is), so its record classification is modelled
from the design document. -/

/-- A custom attribute `{name, section, value}`; `sect` stands for the Python key
`section`, which is a reserved word here. -/
structure CustomAttribute where
  name : String
  sect : String
  value : String
deriving DecidableEq, Repr

/-- Modelled from the spec: the Diff Engine classification of the custom-attribute
reconciler, whose source module is absent from the tree.  Records are keyed by the
composite key `(name, section)`; a desired record whose key is absent on the current
side is Added, one whose key is present with a differing value field is Updated
(design document sections 4.2 and 4.5). -/
def classify_custom_attributes (current desired : List CustomAttribute) :
    List CustomAttribute × List CustomAttribute :=
  (desired.filter fun d =>
      !(current.any fun c => decide (c.name = d.name) && decide (c.sect = d.sect)),
   desired.filter fun d =>
      current.any fun c => decide (c.name = d.name) && decide (c.sect = d.sect)
        && decide (c.value ≠ d.value))

/-!  Concrete poll-response sequences used as witness inputs. -/

/-- A response sequence that settles the single authtype "bearer" as Valid on the
second fetch, repeating the old (None, None) timestamps on the first. -/
def exSettlesSecond : Nat → AuthMap := fun i =>
  if i = 0 then [("bearer", [("status", JVal.null)])]
  else [("bearer", [("last_valid_on", JVal.s "T1"), ("status", JVal.s "Valid")])]

/-- A response sequence that never changes any timestamp. -/
def exNeverSettles : Nat → AuthMap := fun _ => [("bearer", [])]

/-- A response sequence where authtype "a" settles as explicitly Invalid immediately
while authtype "b" settles only on the second fetch. -/
def exInvalidThenSettles : Nat → AuthMap := fun i =>
  if i = 0 then
    [("a", [("last_invalid_on", JVal.s "T0"), ("status", JVal.s "Invalid")]),
     ("b", [("status", JVal.null)])]
  else
    [("a", [("last_invalid_on", JVal.s "T0"), ("status", JVal.s "Invalid")]),
     ("b", [("last_valid_on", JVal.s "T1"), ("status", JVal.s "Invalid")])]

/-!  Concrete converge inputs used as witness inputs. -/

/-- A single desired openshift endpoint. -/
def exEndpoints : List DesiredEndpoint := [⟨⟨"default", JVal.s "h", JVal.i 8443⟩, "bearer"⟩]

/-- A server whose provider OS01 already matches the desired endpoint, zone and region. -/
def exEnvNoop : Env :=
  ⟨[⟨JVal.i 1, "default"⟩], [⟨JVal.i 5, "OS01"⟩],
   (fun _ => ⟨[⟨"default", JVal.s "h", JVal.i 8443⟩], JVal.i 1, JVal.null⟩),
   (fun _ => []), (fun _ _ => []), JVal.i 9⟩

/-- A server whose provider OS01 has no endpoints yet, and whose validation responses
immediately settle "bearer" as Valid. -/
def exEnvUpdate : Env :=
  ⟨[⟨JVal.i 1, "default"⟩], [⟨JVal.i 5, "OS01"⟩],
   (fun _ => ⟨[], JVal.i 1, JVal.null⟩),
   (fun _ => []),
   (fun _ _ => [("bearer", [("last_valid_on", JVal.s "T"), ("status", JVal.s "Valid")])]),
   JVal.i 9⟩

/-- A server with no provider OS01 at all, settling "bearer" as Valid after creation. -/
def exEnvCreate : Env :=
  ⟨[⟨JVal.i 1, "default"⟩], [],
   (fun _ => ⟨[], JVal.i 1, JVal.null⟩),
   (fun _ => []),
   (fun _ _ => [("bearer", [("last_valid_on", JVal.s "T"), ("status", JVal.s "Valid")])]),
   JVal.i 9⟩

/-- A desired endpoint list for the C1 partition witness. -/
def exC1E : List DesiredEndpoint := [⟨⟨"default", JVal.s "h", JVal.i 1⟩, "bearer"⟩]

/-- A remote provider record for the C1 partition witness: one unrelated role. -/
def exC1R : RemoteProviderData := ⟨[⟨"metrics", JVal.s "m", JVal.i 2⟩], JVal.i 1, JVal.null⟩

/-- The diff computed against `exEnvUpdate`. -/
def exUpdateDiff : DiffResult :=
  ⟨[], [("default", [("hostname", JVal.s "h"), ("port", JVal.i 8443)])], []⟩

/-- The converge trace of the update path against `exEnvUpdate`. -/
def exUpdateTrace : ConvergeTrace :=
  ⟨ConvergeRes.done (JVal.i 5) true
      "Successful update of OS01 provider. Authentication: All Valid" (some exUpdateDiff),
   [WriteCall.edit (JVal.i 5) (JVal.i 1) exEndpoints JVal.null], some ["bearer"]⟩

/-- The converge trace of the create path against `exEnvCreate`. -/
def exCreateTrace : ConvergeTrace :=
  ⟨ConvergeRes.done (JVal.i 9) true
      "Successful addition of OS01 provider. Authentication: All Valid" none,
   [WriteCall.create "OS01" "ManageIQ::Providers::Amazon::CloudManager" (JVal.i 1)
      exEndpoints JVal.null], some ["bearer"]⟩

/-!  General facts about the dict model, used by the claim proofs. -/

theorem dlookup_cons {α : Type} (k' : String) (v' : α) (rest : Dict α) (q : String) :
    dlookup ((k', v') :: rest) q = if k' = q then some v' else dlookup rest q := rfl

theorem keysOf_cons {α : Type} (k' : String) (v' : α) (rest : Dict α) :
    keysOf ((k', v') :: rest) = k' :: keysOf rest := rfl

theorem dlookup_eq_some_mem {α : Type} {m : Dict α} {k : String} {v : α}
    (h : dlookup m k = some v) : (k, v) ∈ m := by
  induction m with
  | nil => simp [dlookup] at h
  | cons p rest ih =>
    obtain ⟨k', v'⟩ := p
    rw [dlookup_cons] at h
    by_cases hk : k' = k
    · rw [if_pos hk] at h
      cases h
      rw [hk]
      exact List.mem_cons_self _ _
    · rw [if_neg hk] at h
      exact List.mem_cons_of_mem _ (ih h)

theorem mem_keysOf_of_mem {α : Type} {m : Dict α} {k : String} {v : α}
    (h : (k, v) ∈ m) : k ∈ keysOf m :=
  List.mem_map.mpr ⟨(k, v), h, rfl⟩

theorem mem_dlookup_of_nodup {α : Type} {m : Dict α} (hn : (keysOf m).Nodup)
    {k : String} {v : α} (h : (k, v) ∈ m) : dlookup m k = some v := by
  induction m with
  | nil => simp at h
  | cons p rest ih =>
    obtain ⟨k', v'⟩ := p
    rw [keysOf_cons] at hn
    rcases List.mem_cons.mp h with h1 | h1
    · cases h1
      rw [dlookup_cons, if_pos rfl]
    · have hk : k' ≠ k := by
        intro he
        exact (List.nodup_cons.mp hn).1 (he ▸ mem_keysOf_of_mem h1)
      rw [dlookup_cons, if_neg hk]
      exact ih (List.nodup_cons.mp hn).2 h1

theorem containsKey_iff_mem_keysOf {α : Type} {m : Dict α} {k : String} :
    containsKey m k = true ↔ k ∈ keysOf m := by
  induction m with
  | nil => simp [containsKey, dlookup, keysOf]
  | cons p rest ih =>
    obtain ⟨k', v'⟩ := p
    rw [keysOf_cons]
    by_cases hk : k' = k
    · simp [containsKey, dlookup_cons, if_pos hk, hk]
    · have h1 : containsKey ((k', v') :: rest) k = containsKey rest k := by
        simp [containsKey, dlookup_cons, if_neg hk]
      have hk2 : ¬(k = k') := fun h => hk h.symm
      rw [h1, ih, List.mem_cons]
      simp [hk2]

theorem containsKey_eq_false_lookup {α : Type} {m : Dict α} {k : String}
    (h : containsKey m k = false) : dlookup m k = none := by
  unfold containsKey at h
  cases hv : dlookup m k with
  | none => rfl
  | some v => rw [hv] at h; simp at h

theorem mem_buildMap {α : Type} {l : List (String × α)} {p : String × α}
    (h : p ∈ buildMap l) : p ∈ l := by
  induction l with
  | nil => simp [buildMap] at h
  | cons q rest ih =>
    obtain ⟨k, v⟩ := q
    unfold buildMap at h
    by_cases hc : rest.any (fun p => decide (p.1 = k)) = true
    · rw [if_pos hc] at h
      exact List.mem_cons_of_mem _ (ih h)
    · rw [if_neg hc] at h
      rcases List.mem_cons.mp h with h1 | h1
      · exact h1 ▸ List.mem_cons_self _ _
      · exact List.mem_cons_of_mem _ (ih h1)

theorem buildMap_cons_pos {α : Type} {k : String} {v : α} {rest : List (String × α)}
    (hc : rest.any (fun p => decide (p.1 = k)) = true) :
    buildMap ((k, v) :: rest) = buildMap rest := by
  rw [buildMap, if_pos hc]

theorem buildMap_cons_neg {α : Type} {k : String} {v : α} {rest : List (String × α)}
    (hc : ¬ rest.any (fun p => decide (p.1 = k)) = true) :
    buildMap ((k, v) :: rest) = (k, v) :: buildMap rest := by
  rw [buildMap, if_neg hc]

theorem containsKey_buildMap {α : Type} {l : List (String × α)} {k : String} :
    containsKey (buildMap l) k = l.any (fun p => decide (p.1 = k)) := by
  induction l with
  | nil => simp [buildMap, containsKey, dlookup]
  | cons q rest ih =>
    obtain ⟨k', v'⟩ := q
    rw [List.any_cons]
    by_cases hc : rest.any (fun p => decide (p.1 = k')) = true
    · rw [buildMap_cons_pos hc, ih]
      by_cases hk : k' = k
      · have hc2 : rest.any (fun p => decide (p.1 = k)) = true := hk ▸ hc
        simp [hk, hc2]
      · simp [hk]
    · rw [buildMap_cons_neg hc]
      by_cases hk : k' = k
      · simp [containsKey, dlookup_cons, if_pos hk, hk]
      · have h1 : containsKey ((k', v') :: buildMap rest) k = containsKey (buildMap rest) k := by
          simp [containsKey, dlookup_cons, if_neg hk]
        rw [h1, ih]
        simp [hk]

theorem keysOf_buildMap_nodup {α : Type} (l : List (String × α)) :
    (keysOf (buildMap l)).Nodup := by
  induction l with
  | nil => simp [buildMap, keysOf]
  | cons q rest ih =>
    obtain ⟨k, v⟩ := q
    by_cases hc : rest.any (fun p => decide (p.1 = k)) = true
    · rw [buildMap_cons_pos hc]; exact ih
    · rw [buildMap_cons_neg hc, keysOf_cons]
      refine List.nodup_cons.mpr ⟨?_, ih⟩
      intro hmem
      have h1 : containsKey (buildMap rest) k = true := containsKey_iff_mem_keysOf.mpr hmem
      rw [containsKey_buildMap] at h1
      exact hc h1

theorem keysOf_filter_sublist {α : Type} (m : Dict α) (f : String × α → Bool) :
    (keysOf (m.filter f)).Sublist (keysOf m) :=
  (List.filter_sublist m).map Prod.fst

theorem keysOf_filter_nodup {α : Type} {m : Dict α} (hn : (keysOf m).Nodup)
    (f : String × α → Bool) : (keysOf (m.filter f)).Nodup :=
  (keysOf_filter_sublist m f).nodup hn

theorem dlookup_filter {α : Type} {m : Dict α} (hn : (keysOf m).Nodup)
    (f : String × α → Bool) (k : String) :
    dlookup (m.filter f) k = (dlookup m k).bind (fun v => if f (k, v) then some v else none) := by
  induction m with
  | nil => simp [dlookup]
  | cons p rest ih =>
    obtain ⟨k', v'⟩ := p
    rw [keysOf_cons] at hn
    have hnd := List.nodup_cons.mp hn
    by_cases hk : k' = k
    · have hnone : dlookup (rest.filter f) k = none := by
        cases hv : dlookup (rest.filter f) k with
        | none => rfl
        | some w =>
          exfalso
          have hmem := mem_keysOf_of_mem (dlookup_eq_some_mem hv)
          have hmem2 := (keysOf_filter_sublist rest f).subset hmem
          exact hnd.1 (hk ▸ hmem2)
      have hfv : f (k, v') = f (k', v') := by rw [hk]
      by_cases hf : f (k', v') = true
      · rw [List.filter_cons, if_pos hf, dlookup_cons, if_pos hk, dlookup_cons, if_pos hk]
        simp [hfv, hf]
      · rw [List.filter_cons, if_neg hf, hnone, dlookup_cons, if_pos hk]
        simp [hfv, hf]
    · by_cases hf : f (k', v') = true
      · rw [List.filter_cons, if_pos hf, dlookup_cons, if_neg hk, dlookup_cons, if_neg hk]
        exact ih hnd.2
      · rw [List.filter_cons, if_neg hf, dlookup_cons, if_neg hk]
        exact ih hnd.2

theorem dlookup_mapVal {α β : Type} (g : String → α → β) (m : Dict α) (k : String) :
    dlookup (m.map fun p => (p.1, g p.1 p.2)) k = (dlookup m k).map (g k) := by
  induction m with
  | nil => simp [dlookup]
  | cons p rest ih =>
    obtain ⟨k', v'⟩ := p
    by_cases hk : k' = k
    · subst hk
      simp [dlookup_cons, ih]
    · simp [dlookup_cons, hk, ih]

theorem dlookup_append {α : Type} (a b : Dict α) (k : String) :
    dlookup (a ++ b) k = match dlookup a k with
      | some v => some v
      | none => dlookup b k := by
  induction a with
  | nil => simp [dlookup]
  | cons p rest ih =>
    obtain ⟨k', v'⟩ := p
    rw [List.cons_append, dlookup_cons, dlookup_cons]
    by_cases hk : k' = k
    · rw [if_pos hk, if_pos hk]
    · rw [if_neg hk, if_neg hk, ih]

theorem dlookup_replaceKey {α : Type} (m : Dict α) (k : String) (v : α) (q : String) :
    dlookup (m.map fun p => if p.1 = k then (k, v) else p) q =
      if q = k then (dlookup m k).map (fun _ => v) else dlookup m q := by
  induction m with
  | nil => by_cases hq : q = k <;> simp [dlookup, hq]
  | cons p rest ih =>
    obtain ⟨k', v'⟩ := p
    by_cases hk : k' = k
    · subst hk
      by_cases hq : q = k'
      · subst hq
        simp [dlookup_cons, ih]
      · simp [dlookup_cons, hq, (show ¬(k' = q) from fun h => hq h.symm), ih]
    · by_cases hq : k' = q
      · have hqk : ¬(q = k) := fun h => hk (hq.trans h)
        simp [dlookup_cons, hk, hq, hqk, ih]
      · by_cases hqk : q = k
        · subst hqk
          simp [dlookup_cons, hk, hq, ih]
        · simp [dlookup_cons, hk, hq, hqk, ih]

theorem dlookup_insertD {α : Type} (m : Dict α) (k : String) (v : α) (q : String) :
    dlookup (insertD m k v) q = if q = k then some v else dlookup m q := by
  unfold insertD
  by_cases hc : containsKey m k = true
  · rw [if_pos hc, dlookup_replaceKey]
    by_cases hq : q = k
    · rw [if_pos hq, if_pos hq]
      unfold containsKey at hc
      cases hv : dlookup m k with
      | none => rw [hv] at hc; simp at hc
      | some w => simp [hv]
    · rw [if_neg hq, if_neg hq]
  · rw [if_neg hc, dlookup_append]
    have hnone : dlookup m k = none := containsKey_eq_false_lookup (by simpa using hc)
    by_cases hq : q = k
    · rw [if_pos hq, hq, hnone]
      simp [dlookup]
    · rw [if_neg hq]
      cases hv : dlookup m q with
      | none =>
        simp only [hv]
        simp [dlookup, (show ¬(k = q) from fun h => hq h.symm)]
      | some w => simp [hv]

theorem containsKey_insertD {α : Type} (m : Dict α) (k : String) (v : α) (q : String) :
    containsKey (insertD m k v) q = (containsKey m q || decide (q = k)) := by
  unfold containsKey
  rw [dlookup_insertD]
  by_cases hq : q = k
  · simp [hq]
  · simp [hq]

theorem dictEq_lookup {α : Type} [DecidableEq α] {a b : Dict α}
    (h : dictEq a b = true) {k : String} {v : α} (hm : (k, v) ∈ a) :
    dlookup b k = some v := by
  unfold dictEq at h
  have h2 := ((Bool.and_eq_true _ _).mp h).2
  have h3 := List.all_eq_true.mp h2 (k, v) hm
  simpa using h3

theorem dictEq_length {α : Type} [DecidableEq α] {a b : Dict α}
    (h : dictEq a b = true) : a.length = b.length := by
  unfold dictEq at h
  have h1 := ((Bool.and_eq_true _ _).mp h).1
  simpa using h1

theorem dictEq_iff_lookup_eq {α : Type} [DecidableEq α] {a b : Dict α}
    (ha : (keysOf a).Nodup) (hb : (keysOf b).Nodup) :
    dictEq a b = true ↔ ∀ k, dlookup a k = dlookup b k := by
  constructor
  · intro h k
    cases hv : dlookup a k with
    | some v => exact (dictEq_lookup h (dlookup_eq_some_mem hv)).symm
    | none =>
      cases hw : dlookup b k with
      | none => rfl
      | some w =>
        exfalso
        have hsub : (keysOf a).toFinset ⊆ (keysOf b).toFinset := by
          intro x hx
          rw [List.mem_toFinset] at hx ⊢
          obtain ⟨⟨x', u⟩, hu, he⟩ := List.mem_map.mp hx
          cases he
          exact mem_keysOf_of_mem (dlookup_eq_some_mem (dictEq_lookup h hu))
        have hca : (keysOf a).toFinset.card = a.length := by
          rw [List.toFinset_card_of_nodup ha]
          simp [keysOf]
        have hcb : (keysOf b).toFinset.card = b.length := by
          rw [List.toFinset_card_of_nodup hb]
          simp [keysOf]
        have heq : (keysOf a).toFinset = (keysOf b).toFinset := by
          apply Finset.eq_of_subset_of_card_le hsub
          rw [hca, hcb, dictEq_length h]
        have hkb : k ∈ keysOf b := mem_keysOf_of_mem (dlookup_eq_some_mem hw)
        have hka : k ∈ keysOf a := by
          rw [← List.mem_toFinset, heq, List.mem_toFinset]
          exact hkb
        have h5 := containsKey_iff_mem_keysOf.mpr hka
        unfold containsKey at h5
        rw [hv] at h5
        simp at h5
  · intro h
    unfold dictEq
    refine (Bool.and_eq_true _ _).mpr ⟨?_, ?_⟩
    · have hperm : (keysOf a).Perm (keysOf b) := by
        refine (List.perm_ext_iff_of_nodup ha hb).mpr ?_
        intro x
        rw [← containsKey_iff_mem_keysOf, ← containsKey_iff_mem_keysOf]
        unfold containsKey
        rw [h x]
      have h6 := hperm.length_eq
      simp only [keysOf, List.length_map] at h6
      simpa using h6
    · refine List.all_eq_true.mpr ?_
      intro p hm
      have h7 := mem_dlookup_of_nodup ha (show (p.1, p.2) ∈ a from hm)
      rw [h p.1] at h7
      simpa using h7

theorem dlookup_mapVal2 {α β : Type} (g : String × α → β) (m : Dict α) (k : String) :
    dlookup (m.map fun p => (p.1, g p)) k = (dlookup m k).map (fun v => g (k, v)) := by
  induction m with
  | nil => simp [dlookup]
  | cons p rest ih =>
    obtain ⟨k', v'⟩ := p
    by_cases hk : k' = k
    · subst hk
      simp [dlookup_cons]
    · simp [dlookup_cons, hk, ih]

theorem containsKey_mapVal2 {α β : Type} (g : String × α → β) (m : Dict α) (k : String) :
    containsKey (m.map fun p => (p.1, g p)) k = containsKey m k := by
  unfold containsKey
  rw [dlookup_mapVal2]
  cases dlookup m k <;> rfl

theorem containsKey_filter_iff {α : Type} {m : Dict α} (hn : (keysOf m).Nodup)
    (f : String × α → Bool) (k : String) :
    containsKey (m.filter f) k = true ↔ ∃ v, dlookup m k = some v ∧ f (k, v) = true := by
  unfold containsKey
  rw [dlookup_filter hn]
  cases hv : dlookup m k with
  | none => simp
  | some v =>
    by_cases hf : f (k, v) = true
    · simp [hf]
    · simp [hf]

theorem keysOf_desired_nodup (E : List DesiredEndpoint) :
    (keysOf (desired_by_role E)).Nodup := keysOf_buildMap_nodup _

theorem keysOf_result_nodup (R : RemoteProviderData) :
    (keysOf (result_by_role R)).Nodup := keysOf_buildMap_nodup _

theorem dictEq_pair_iff (k1 k2 : String) (h12 : k1 ≠ k2) (a1 a2 b1 b2 : JVal) :
    dictEq [(k1, a1), (k2, a2)] [(k1, b1), (k2, b2)] = true ↔ (b1 = a1 ∧ b2 = a2) := by
  unfold dictEq
  simp [dlookup_cons, h12]

/-- Two host-port records are Python-equal exactly when they are the same record. -/
theorem dictEq_host_port (a b : Endpoint) :
    dictEq (host_port a) (host_port b) = true ↔ host_port a = host_port b := by
  unfold host_port
  rw [dictEq_pair_iff _ _ (by decide)]
  constructor
  · rintro ⟨h1, h2⟩
    rw [h1, h2]
  · intro h
    rw [List.cons_eq_cons, List.cons_eq_cons] at h
    obtain ⟨h1, h2, _⟩ := h
    rw [Prod.mk.injEq] at h1 h2
    exact ⟨h1.2.symm, h2.2.symm⟩

/-- Every value stored in a desired-by-role map is a host-port record of a desired
endpoint with the looked-up role. -/
theorem lookup_desired_host_port {E : List DesiredEndpoint} {r : String} {v : Dict JVal}
    (h : dlookup (desired_by_role E) r = some v) :
    ∃ e ∈ E, v = host_port e.endpoint ∧ e.endpoint.role = r := by
  have hm := mem_buildMap (dlookup_eq_some_mem h)
  obtain ⟨e, he, heq⟩ := List.mem_map.mp hm
  rw [Prod.mk.injEq] at heq
  exact ⟨e, he, heq.2.symm, heq.1⟩

/-- Every value stored in a result-by-role map is a host-port record of a current
endpoint with the looked-up role. -/
theorem lookup_result_host_port {R : RemoteProviderData} {r : String} {v : Dict JVal}
    (h : dlookup (result_by_role R) r = some v) :
    ∃ e ∈ R.endpoints, v = host_port e ∧ e.role = r := by
  have hm := mem_buildMap (dlookup_eq_some_mem h)
  obtain ⟨e, he, heq⟩ := List.mem_map.mp hm
  rw [Prod.mk.injEq] at heq
  exact ⟨e, he, heq.2.symm, heq.1⟩

theorem containsKey_desired_role {E : List DesiredEndpoint} {r : String}
    (h : containsKey (desired_by_role E) r = true) : ∃ e ∈ E, e.endpoint.role = r := by
  unfold containsKey at h
  cases hv : dlookup (desired_by_role E) r with
  | none => rw [hv] at h; simp at h
  | some v =>
    obtain ⟨e, he, _, hr⟩ := lookup_desired_host_port hv
    exact ⟨e, he, hr⟩

theorem containsKey_result_role {R : RemoteProviderData} {r : String}
    (h : containsKey (result_by_role R) r = true) : ∃ e ∈ R.endpoints, e.role = r := by
  unfold containsKey at h
  cases hv : dlookup (result_by_role R) r with
  | none => rw [hv] at h; simp at h
  | some v =>
    obtain ⟨e, he, _, hr⟩ := lookup_result_host_port hv
    exact ⟨e, he, hr⟩

/-- Key membership in the per-role `updated` comprehension: the role is present on
both sides with records that are not Python-equal. -/
theorem containsKey_updated_endpoints {E : List DesiredEndpoint} {R : RemoteProviderData}
    {k : String} :
    containsKey (updated_endpoints (desired_by_role E) (result_by_role R)) k = true
      ↔ ∃ v w, dlookup (desired_by_role E) k = some v
          ∧ dlookup (result_by_role R) k = some w ∧ dictEq v w = false := by
  unfold updated_endpoints
  rw [containsKey_mapVal2, containsKey_filter_iff (keysOf_desired_nodup E)]
  constructor
  · rintro ⟨v, hv, hf⟩
    dsimp only at hf
    rw [Bool.and_eq_true] at hf
    obtain ⟨hck, hne⟩ := hf
    unfold containsKey at hck
    cases hw : dlookup (result_by_role R) k with
    | none => rw [hw] at hck; simp at hck
    | some w =>
      refine ⟨v, w, hv, rfl, ?_⟩
      rw [hw] at hne
      simp only [Option.getD_some] at hne
      cases hde : dictEq v w with
      | false => rfl
      | true => rw [hde] at hne; simp at hne
  · rintro ⟨v, w, hv, hw, hne⟩
    refine ⟨v, hv, ?_⟩
    dsimp only
    rw [Bool.and_eq_true]
    constructor
    · unfold containsKey
      rw [hw]
      rfl
    · rw [hw]
      simp only [Option.getD_some, hne]
      rfl

theorem containsKey_added_endpoints {E : List DesiredEndpoint} {R : RemoteProviderData}
    {k : String} :
    containsKey (added_endpoints (desired_by_role E) (result_by_role R)) k = true
      ↔ containsKey (desired_by_role E) k = true
        ∧ containsKey (result_by_role R) k = false := by
  unfold added_endpoints
  rw [containsKey_filter_iff (keysOf_desired_nodup E)]
  constructor
  · rintro ⟨v, hv, hf⟩
    refine ⟨by unfold containsKey; rw [hv]; rfl, ?_⟩
    simpa using hf
  · rintro ⟨h1, h2⟩
    unfold containsKey at h1
    cases hv : dlookup (desired_by_role E) k with
    | none => rw [hv] at h1; simp at h1
    | some v => exact ⟨v, rfl, by simpa using h2⟩

theorem containsKey_removed_endpoints {E : List DesiredEndpoint} {R : RemoteProviderData}
    {k : String} :
    containsKey (removed_endpoints (desired_by_role E) (result_by_role R)) k = true
      ↔ containsKey (result_by_role R) k = true
        ∧ containsKey (desired_by_role E) k = false := by
  unfold removed_endpoints
  rw [containsKey_filter_iff (keysOf_result_nodup R)]
  constructor
  · rintro ⟨v, hv, hf⟩
    refine ⟨by unfold containsKey; rw [hv]; rfl, ?_⟩
    simpa using hf
  · rintro ⟨h1, h2⟩
    unfold containsKey at h1
    cases hv : dlookup (result_by_role R) k with
    | none => rw [hv] at h1; simp at h1
    | some v => exact ⟨v, rfl, by simpa using h2⟩

/-- The non-empty branch of `required_updates`, spelled out. -/
theorem required_updates_eq_some (E : List DesiredEndpoint) (R : RemoteProviderData)
    (Z P : JVal)
    (hcond : (dictEq (result_by_role R) (desired_by_role E) && decide (R.zone_id = Z)
      && decide (orNone R.provider_region = P)) = false) :
    required_updates E R Z P = some
      ⟨(if !(decide (orNone R.provider_region = P)) then
          insertD (if !(decide (R.zone_id = Z)) then
              insertD (updated_endpoints (desired_by_role E) (result_by_role R)) "zone_id"
                (UpdVal.scalar Z)
            else updated_endpoints (desired_by_role E) (result_by_role R))
            "provider_region" (UpdVal.scalar P)
        else (if !(decide (R.zone_id = Z)) then
            insertD (updated_endpoints (desired_by_role E) (result_by_role R)) "zone_id"
              (UpdVal.scalar Z)
          else updated_endpoints (desired_by_role E) (result_by_role R))),
       added_endpoints (desired_by_role E) (result_by_role R),
       removed_endpoints (desired_by_role E) (result_by_role R)⟩ := by
  unfold required_updates
  dsimp only
  rw [if_neg (by rw [hcond]; exact Bool.false_ne_true)]

/-- Wrapping the scalar insertions around the per-role updated dict does not affect
keys other than "zone_id" and "provider_region". -/
theorem containsKey_scalar_wrap (m : Dict UpdVal) (Z P : JVal) (cz cp : Bool) (k : String)
    (hkz : k ≠ "zone_id") (hkp : k ≠ "provider_region") :
    containsKey (if cp then
        insertD (if cz then insertD m "zone_id" (UpdVal.scalar Z) else m) "provider_region"
          (UpdVal.scalar P)
      else (if cz then insertD m "zone_id" (UpdVal.scalar Z) else m)) k
    = containsKey m k := by
  by_cases hcz : cz = true <;> by_cases hcp : cp = true <;>
    simp [hcz, hcp, containsKey_insertD, hkz, hkp]

/-- A key of the wrapped updated dict is a key of the per-role updated dict or one of
the two scalar names. -/
theorem containsKey_scalar_wrap_cases (m : Dict UpdVal) (Z P : JVal) (cz cp : Bool)
    (k : String)
    (h : containsKey (if cp then
        insertD (if cz then insertD m "zone_id" (UpdVal.scalar Z) else m) "provider_region"
          (UpdVal.scalar P)
      else (if cz then insertD m "zone_id" (UpdVal.scalar Z) else m)) k = true) :
    containsKey m k = true ∨ k = "zone_id" ∨ k = "provider_region" := by
  cases cz <;> cases cp <;> simp [containsKey_insertD] at h <;> tauto

/-!  Facts about the validation poller. -/

/-- Unfolding of one iteration of the poll loop. -/
theorem verify_from_one (f : Nat → AuthMap) (o : AuthMap) (a : List String) (i rem : Nat) :
    verify_from f o a i (rem + 1) =
      match mkDetails (f i) a with
      | none => none
      | some details =>
        if validations_done o (f i) a then
          match anyStatusInvalid (f i) a with
          | none => none
          | some true => some ⟨false, VDetails.map details, i + 1, i⟩
          | some false =>
            match allStatusValid (f i) a with
            | none => none
            | some true => some ⟨true, VDetails.allValid, i + 1, i⟩
            | some false =>
              if rem = 0 then some ⟨false, VDetails.map details, i + 1, i + 1⟩
              else verify_from f o a (i + 1) rem
        else
          if rem = 0 then some ⟨false, VDetails.map details, i + 1, i + 1⟩
          else verify_from f o a (i + 1) rem := rfl

/-!  Claim theorems. -/

/-- Claim C6: deleting a provider whose name does not resolve to an id issues no
write call and returns task_id None, changed False and the message
"Provider (name) does not exist" as a normal result. -/
theorem C6_delete_missing (providers : List ProviderRec) (resp : Option DeleteResponse)
    (provider_name : String)
    (h : find_provider_by_name providers provider_name = JVal.null) :
    delete_provider providers resp false provider_name =
      some (⟨JVal.null, false, "Provider " ++ provider_name ++ " doesn\x27t exist", none⟩, []) := by
  unfold delete_provider
  rw [h]
  rfl

/-- Witness for C6: no provider named OS01 is registered. -/
theorem C6_delete_missing_witness :
    delete_provider [⟨JVal.i 7, "other"⟩] none false "OS01" =
      some (⟨JVal.null, false, "Provider OS01 doesn\x27t exist", none⟩, []) :=
  C6_delete_missing [⟨JVal.i 7, "other"⟩] none "OS01" (by decide)

/-- Claim C8: a desired custom attribute with the same name as an existing attribute
but a different section is classified as Added with Updated empty; classification
uses the full (name, section) composite key. -/
theorem C8_section_key_added (c d : CustomAttribute) (_hn : d.name = c.name)
    (hs : d.sect ≠ c.sect) :
    classify_custom_attributes [c] [d] = ([d], []) := by
  unfold classify_custom_attributes
  have hcs : ¬(c.sect = d.sect) := fun h => hs h.symm
  simp [hcs]

/-- Witness for C8: the example of the claim, existing
(ca1, metadata, value 1) against desired (ca1, section, new value). -/
theorem C8_section_key_added_witness :
    classify_custom_attributes [⟨"ca1", "metadata", "value 1"⟩]
        [⟨"ca1", "section", "new value"⟩] =
      ([⟨"ca1", "section", "new value"⟩], []) :=
  C8_section_key_added ⟨"ca1", "metadata", "value 1"⟩ ⟨"ca1", "section", "new value"⟩
    (by decide) (by decide)

/-- Claim C10: when a fetched validation response lacks a record for an authtype
under test, the poller raises a lookup error (modelled `none`) instead of returning
a (success, details) result: the details comprehension indexes the fetched mapping
directly. -/
theorem C10_missing_authtype_raises (fetches : Nat → AuthMap) (old : AuthMap)
    (ats : List String) (t : String) (ht : t ∈ ats)
    (hm : containsKey (fetches 0) t = false) :
    verify_authenticaion_validation fetches old ats = none := by
  have hmk : mkDetails (fetches 0) ats = none := by
    unfold mkDetails
    rw [if_neg]
    intro hall
    have h2 := List.all_eq_true.mp hall t ht
    rw [hm] at h2
    exact Bool.false_ne_true h2
  show verify_from fetches old ats 0 (9 + 1) = none
  rw [verify_from_one, hmk]

/-- Witness for C10: the first response carries only the authtype "other" while
"bearer" is under test. -/
theorem C10_missing_authtype_raises_witness :
    verify_authenticaion_validation (fun _ => [("other", [])]) [("bearer", [])] ["bearer"]
      = none :=
  C10_missing_authtype_raises (fun _ => [("other", [])]) [("bearer", [])] ["bearer"] "bearer"
    (by decide) (by decide)

/-- The poll loop, run with at least one iteration to go, exhausts its budget when no
reached iteration is settled, fetching and sleeping once per iteration and returning
the details of the last fetch. -/
theorem verify_from_exhausts (f : Nat → AuthMap) (o : AuthMap) (a : List String) :
    ∀ rem i, rem ≠ 0 →
      (∀ j, j < i + rem → (a.all fun t => containsKey (f j) t) = true) →
      (∀ j, j < i + rem → validations_done o (f j) a = false) →
      verify_from f o a i rem =
        some ⟨false, VDetails.map (theDetails (f (i + rem - 1)) a), i + rem, i + rem⟩ := by
  intro rem
  induction rem with
  | zero => intro i h; exact absurd rfl h
  | succ rem ih =>
    intro i _ hwf hns
    have hmk : mkDetails (f i) a = some (theDetails (f i) a) := by
      unfold mkDetails
      rw [if_pos (hwf i (by omega))]
    rw [verify_from_one, hmk]
    dsimp only
    rw [if_neg (by rw [hns i (by omega)]; exact Bool.false_ne_true)]
    by_cases h0 : rem = 0
    · subst h0
      simp
    · rw [if_neg h0,
        ih (i + 1) h0 (fun j hj => hwf j (by omega)) (fun j hj => hns j (by omega))]
      rw [show i + 1 + rem = i + (rem + 1) from by omega]

/-- Claim C5: when some authtype under test never changes its timestamp pair across
all reachable fetches (and the responses carry all authtypes under test), the poller
performs exactly ITERATIONS = 10 fetches and 10 sleeps of WAIT_TIME = 5 time-units
(50 in total) and returns failure with the details of the last fetch. -/
theorem C5_exhaustion (f : Nat → AuthMap) (old : AuthMap) (ats : List String) (t : String)
    (ht : t ∈ ats)
    (hns : ∀ i, i < ITERATIONS → validated (getRec old t) (getRec (f i) t) = false)
    (hwf : ∀ i, i < ITERATIONS → (ats.all fun u => containsKey (f i) u) = true) :
    verify_authenticaion_validation f old ats =
      some ⟨false, VDetails.map (theDetails (f (ITERATIONS - 1)) ats), ITERATIONS, ITERATIONS⟩
    ∧ ITERATIONS * WAIT_TIME = 50 := by
  constructor
  · have hvd : ∀ j, j < 0 + ITERATIONS → validations_done old (f j) ats = false := by
      intro j hj
      cases hh : validations_done old (f j) ats with
      | false => rfl
      | true =>
        exfalso
        unfold validations_done at hh
        have h2 := List.all_eq_true.mp hh t ht
        rw [hns j (by omega)] at h2
        exact Bool.false_ne_true h2
    have h := verify_from_exhausts f old ats ITERATIONS 0 (by decide)
      (fun j hj => hwf j (by omega)) hvd
    simpa [verify_authenticaion_validation] using h
  · decide

/-- Witness for C5: a constant response never changing the snapshot of "bearer". -/
theorem C5_exhaustion_witness :
    verify_authenticaion_validation exNeverSettles [("bearer", [])] ["bearer"]
      = some ⟨false, VDetails.map (theDetails (exNeverSettles (ITERATIONS - 1)) ["bearer"]),
          ITERATIONS, ITERATIONS⟩
    ∧ ITERATIONS * WAIT_TIME = 50 :=
  C5_exhaustion exNeverSettles [("bearer", [])] ["bearer"] "bearer"
    (by decide) (fun i _ => rfl) (fun i _ => rfl)

/-- Early exit of the poll loop with a failure result happens only at an iteration
whose fetch made every authtype under test settled. -/
theorem verify_from_early_exit (f : Nat → AuthMap) (o : AuthMap) (a : List String) :
    ∀ rem i r, verify_from f o a i rem = some r → r.success = false →
      r.nfetches = r.nsleeps + 1 → validations_done o (f r.nsleeps) a = true := by
  intro rem
  induction rem with
  | zero => intro i r h; simp [verify_from] at h
  | succ rem ih =>
    intro i r h hsucc hcount
    rw [verify_from_one] at h
    cases hmk : mkDetails (f i) a with
    | none => rw [hmk] at h; dsimp only at h; simp at h
    | some details =>
      rw [hmk] at h
      dsimp only at h
      by_cases hvd : validations_done o (f i) a = true
      · rw [if_pos hvd] at h
        cases hai : anyStatusInvalid (f i) a with
        | none => rw [hai] at h; dsimp only at h; simp at h
        | some b =>
          rw [hai] at h
          cases b with
          | true =>
            dsimp only at h
            injection h with h2
            subst h2
            exact hvd
          | false =>
            dsimp only at h
            cases has : allStatusValid (f i) a with
            | none => rw [has] at h; dsimp only at h; simp at h
            | some b2 =>
              rw [has] at h
              cases b2 with
              | true =>
                dsimp only at h
                injection h with h2
                subst h2
                simp at hsucc
              | false =>
                dsimp only at h
                by_cases h0 : rem = 0
                · rw [if_pos h0] at h
                  injection h with h2
                  subst h2
                  simp at hcount
                · rw [if_neg h0] at h
                  exact ih (i + 1) r h hsucc hcount
      · rw [if_neg hvd] at h
        by_cases h0 : rem = 0
        · rw [if_pos h0] at h
          injection h with h2
          subst h2
          simp at hcount
        · rw [if_neg h0] at h
          exact ih (i + 1) r h hsucc hcount

/-- Claim C3: the explicit-failure result (False with the per-authtype details map,
leaving iterations unused) is produced only at an iteration in which every authtype
under test has settled; and an iteration with an unsettled authtype never terminates
the loop, whatever statuses (for instance an explicit Invalid) the fetch reports. -/
theorem C3_explicit_failure_gating :
    (∀ (f : Nat → AuthMap) (o : AuthMap) (a : List String) (r : VerifyResult),
      verify_authenticaion_validation f o a = some r → r.success = false →
      r.nfetches = r.nsleeps + 1 → validations_done o (f r.nsleeps) a = true) ∧
    (∀ (f : Nat → AuthMap) (o : AuthMap) (a : List String) (i rem : Nat)
      (d : Dict (JVal × JVal)), mkDetails (f i) a = some d →
      validations_done o (f i) a = false →
      verify_from f o a i (rem + 1 + 1) = verify_from f o a (i + 1) (rem + 1)) := by
  constructor
  · intro f o a r h
    exact verify_from_early_exit f o a ITERATIONS 0 r h
  · intro f o a i rem d hmk hvd
    rw [verify_from_one, hmk]
    dsimp only
    rw [if_neg (by rw [hvd]; exact Bool.false_ne_true), if_neg (by omega : ¬(rem + 1 = 0))]

/-- Witness for C3: with "a" explicitly Invalid but "b" unsettled on the first fetch,
the loop keeps polling; the failure exit on the second fetch happens with both
settled. -/
theorem C3_explicit_failure_gating_witness :
    validations_done [] (exInvalidThenSettles 1) ["a", "b"] = true ∧
    verify_from exInvalidThenSettles [] ["a", "b"] 0 (0 + 1 + 1)
      = verify_from exInvalidThenSettles [] ["a", "b"] (0 + 1) (0 + 1) :=
  ⟨C3_explicit_failure_gating.1 exInvalidThenSettles [] ["a", "b"]
      ⟨false, VDetails.map [("a", (JVal.s "Invalid", JVal.s "")),
        ("b", (JVal.s "Invalid", JVal.s ""))], 2, 1⟩
      (by decide) (by decide) (by decide),
   C3_explicit_failure_gating.2 exInvalidThenSettles [] ["a", "b"] 0 0
      [("a", (JVal.s "Invalid", JVal.s "")), ("b", (JVal.null, JVal.s ""))]
      (by decide) (by decide)⟩

/-- Claim C4: from a prior snapshot with (None, None) timestamps for the single
authtype "bearer", a first fetch repeating those timestamps and a second fetch with
a fresh last_valid_on and status Valid make the poller issue exactly 2 fetches (one
retry, hence one sleep) and succeed with details All Valid. -/
theorem C4_two_fetch_success (f : Nat → AuthMap) (orec r0 r1 : Dict JVal) (lv : JVal)
    (h0 : dlookup (f 0) "bearer" = some r0) (h1 : dlookup (f 1) "bearer" = some r1)
    (ho1 : dget orec "last_valid_on" = JVal.null) (ho2 : dget orec "last_invalid_on" = JVal.null)
    (ha1 : dget r0 "last_valid_on" = JVal.null) (ha2 : dget r0 "last_invalid_on" = JVal.null)
    (hb1 : dget r1 "last_valid_on" = lv) (hlv : lv ≠ JVal.null)
    (hst : dlookup r1 "status" = some (JVal.s "Valid")) :
    verify_authenticaion_validation f [("bearer", orec)] ["bearer"]
      = some ⟨true, VDetails.allValid, 2, 1⟩ := by
  have hget0 : getRec (f 0) "bearer" = r0 := by unfold getRec; rw [h0]; rfl
  have hget1 : getRec (f 1) "bearer" = r1 := by unfold getRec; rw [h1]; rfl
  have hgetold : getRec [("bearer", orec)] "bearer" = orec := rfl
  have hdone0 : validations_done [("bearer", orec)] (f 0) ["bearer"] = false := by
    unfold validations_done
    rw [List.all_cons, List.all_nil, hget0, hgetold]
    unfold validated
    rw [ho1, ho2, ha1, ha2]
    simp
  have hdone1 : validations_done [("bearer", orec)] (f 1) ["bearer"] = true := by
    unfold validations_done
    rw [List.all_cons, List.all_nil, hget1, hgetold]
    unfold validated
    rw [ho1, ho2, hb1]
    have hlv2 : ¬(JVal.null = lv) := fun h => hlv h.symm
    simp [hlv2]
  have hmk0 : mkDetails (f 0) ["bearer"] = some (theDetails (f 0) ["bearer"]) := by
    unfold mkDetails
    rw [if_pos]
    rw [List.all_cons, List.all_nil]
    unfold containsKey
    rw [h0]
    rfl
  have hmk1 : mkDetails (f 1) ["bearer"] = some (theDetails (f 1) ["bearer"]) := by
    unfold mkDetails
    rw [if_pos]
    rw [List.all_cons, List.all_nil]
    unfold containsKey
    rw [h1]
    rfl
  have hany1 : anyStatusInvalid (f 1) ["bearer"] = some false := by
    rw [anyStatusInvalid, h1]
    dsimp only
    rw [hst]
    dsimp only
    simp [anyStatusInvalid]
  have hall1 : allStatusValid (f 1) ["bearer"] = some true := by
    rw [allStatusValid, h1]
    dsimp only
    rw [hst]
    dsimp only
    simp [allStatusValid]
  show verify_from f [("bearer", orec)] ["bearer"] 0 (9 + 1)
    = some ⟨true, VDetails.allValid, 2, 1⟩
  rw [verify_from_one, hmk0]
  dsimp only
  rw [if_neg (by rw [hdone0]; exact Bool.false_ne_true), if_neg (by omega : ¬(9 = 0))]
  show verify_from f [("bearer", orec)] ["bearer"] 1 (8 + 1) = _
  rw [verify_from_one, hmk1]
  dsimp only
  rw [if_pos hdone1, hany1]
  dsimp only
  rw [hall1]

/-- Witness for C4: the two-fetch response sequence settling "bearer" as Valid. -/
theorem C4_two_fetch_success_witness :
    verify_authenticaion_validation exSettlesSecond [("bearer", [])] ["bearer"]
      = some ⟨true, VDetails.allValid, 2, 1⟩ :=
  C4_two_fetch_success exSettlesSecond [] [("status", JVal.null)]
    [("last_valid_on", JVal.s "T1"), ("status", JVal.s "Valid")] (JVal.s "T1")
    (by decide) (by decide) (by decide) (by decide) (by decide) (by decide) (by decide)
    (by decide) (by decide)

/-- When the desired and current role maps agree pointwise and the scalars agree,
`required_updates` returns the empty hash. -/
theorem required_updates_none_of_agree (endpoints : List DesiredEndpoint)
    (R : RemoteProviderData) (Z P : JVal)
    (hsame : ∀ r, dlookup (desired_by_role endpoints) r = dlookup (result_by_role R) r)
    (hzone : R.zone_id = Z) (hregion : orNone R.provider_region = P) :
    required_updates endpoints R Z P = none := by
  have hdeq : dictEq (result_by_role R) (desired_by_role endpoints) = true :=
    (dictEq_iff_lookup_eq (keysOf_buildMap_nodup _) (keysOf_buildMap_nodup _)).mpr
      (fun k => (hsame k).symm)
  unfold required_updates
  dsimp only
  rw [if_pos]
  rw [hdeq, hzone, hregion]
  simp

/-- With the provider found and an empty diff, `add_or_update_provider` takes the
no-change branch: no write, no poll, message "already exists". -/
theorem add_or_update_noop (env : Env) (changed : Bool) (provider_name provider_type : String)
    (endpoints : List DesiredEndpoint) (zone : Option String) (provider_region : JVal)
    (hfound : truthy (find_provider_by_name env.providers provider_name) = true)
    (hru : required_updates endpoints
      (env.remoteData (find_provider_by_name env.providers provider_name))
      (find_zone_by_name env.zones (zoneNameArg zone)) provider_region = none) :
    add_or_update_provider env changed provider_name provider_type endpoints zone provider_region
      = some ⟨ConvergeRes.noop changed ("Provider " ++ provider_name ++ " already exists"),
          [], none⟩ := by
  unfold add_or_update_provider
  dsimp only
  rw [if_pos hfound, hru]

/-- Claim C2: if every role has an identical {hostname, port} record on both sides,
the remote zone id equals the desired zone id and the remote region equals the
desired region, then required_updates returns the empty diff and
add_or_update_provider performs no write and returns changed False with the message
"Provider (name) already exists". -/
theorem C2_noop_converge (env : Env) (provider_name provider_type : String)
    (endpoints : List DesiredEndpoint) (zone : Option String) (provider_region : JVal)
    (hfound : truthy (find_provider_by_name env.providers provider_name) = true)
    (hsame : ∀ r, dlookup (desired_by_role endpoints) r
      = dlookup (result_by_role
          (env.remoteData (find_provider_by_name env.providers provider_name))) r)
    (hzone : (env.remoteData (find_provider_by_name env.providers provider_name)).zone_id
      = find_zone_by_name env.zones (zoneNameArg zone))
    (hregion : orNone
      (env.remoteData (find_provider_by_name env.providers provider_name)).provider_region
      = provider_region) :
    required_updates endpoints (env.remoteData (find_provider_by_name env.providers provider_name))
        (find_zone_by_name env.zones (zoneNameArg zone)) provider_region = none
    ∧ add_or_update_provider env false provider_name provider_type endpoints zone provider_region
      = some ⟨ConvergeRes.noop false ("Provider " ++ provider_name ++ " already exists"),
          [], none⟩ := by
  have hru := required_updates_none_of_agree endpoints _ _ _ hsame hzone hregion
  exact ⟨hru, add_or_update_noop env false provider_name provider_type endpoints zone
    provider_region hfound hru⟩

/-- Witness for C2: provider OS01 already carries the desired endpoint, zone and
region. -/
theorem C2_noop_converge_witness :
    required_updates exEndpoints
        (exEnvNoop.remoteData (find_provider_by_name exEnvNoop.providers "OS01"))
        (find_zone_by_name exEnvNoop.zones (zoneNameArg none)) JVal.null = none
    ∧ add_or_update_provider exEnvNoop false "OS01" "openshift-enterprise" exEndpoints none
        JVal.null
      = some ⟨ConvergeRes.noop false "Provider OS01 already exists", [], none⟩ :=
  C2_noop_converge exEnvNoop "OS01" "openshift-enterprise" exEndpoints none JVal.null
    (by decide) (fun r => rfl) (by decide) (by decide)

/-- Claim C9: the diff never reads authentication data — replacing every authtype
leaves required_updates unchanged — and under agreement of every role on hostname
and port plus unchanged scalars, the diff is empty and the converge issues no write
call, so credential-only changes are invisible. -/
theorem C9_credential_frame :
    (∀ (E : List DesiredEndpoint) (R : RemoteProviderData) (Z P : JVal)
      (g : DesiredEndpoint → String),
      required_updates (E.map fun e => ⟨e.endpoint, g e⟩) R Z P = required_updates E R Z P) ∧
    (∀ (env : Env) (provider_name provider_type : String) (E : List DesiredEndpoint)
      (zone : Option String) (P : JVal),
      truthy (find_provider_by_name env.providers provider_name) = true →
      (∀ r, dlookup (desired_by_role E) r
        = dlookup (result_by_role
            (env.remoteData (find_provider_by_name env.providers provider_name))) r) →
      (env.remoteData (find_provider_by_name env.providers provider_name)).zone_id
        = find_zone_by_name env.zones (zoneNameArg zone) →
      orNone (env.remoteData (find_provider_by_name env.providers provider_name)).provider_region
        = P →
      required_updates E (env.remoteData (find_provider_by_name env.providers provider_name))
          (find_zone_by_name env.zones (zoneNameArg zone)) P = none ∧
      ∀ tr, add_or_update_provider env false provider_name provider_type E zone P = some tr →
        tr.writes = []) := by
  constructor
  · intro E R Z P g
    have hd : desired_by_role (E.map fun e => ⟨e.endpoint, g e⟩) = desired_by_role E := by
      unfold desired_by_role
      rw [List.map_map]
      rfl
    unfold required_updates
    rw [hd]
  · intro env pn pt E zone P hfound hsame hzone hregion
    have hru := required_updates_none_of_agree E _ _ _ hsame hzone hregion
    refine ⟨hru, ?_⟩
    intro tr htr
    rw [add_or_update_noop env false pn pt E zone P hfound hru] at htr
    injection htr with h2
    rw [← h2]

/-- Witness for C9: replacing the authtype changes nothing, and the agreeing server
gets no write. -/
theorem C9_credential_frame_witness :
    required_updates (exEndpoints.map fun e => ⟨e.endpoint, "token"⟩)
        (exEnvNoop.remoteData (find_provider_by_name exEnvNoop.providers "OS01"))
        (JVal.i 1) JVal.null
      = required_updates exEndpoints
        (exEnvNoop.remoteData (find_provider_by_name exEnvNoop.providers "OS01"))
        (JVal.i 1) JVal.null
    ∧ (⟨ConvergeRes.noop false "Provider OS01 already exists", [], none⟩
        : ConvergeTrace).writes = [] :=
  ⟨C9_credential_frame.1 exEndpoints _ (JVal.i 1) JVal.null (fun _ => "token"),
   (C9_credential_frame.2 exEnvNoop "OS01" "openshift-enterprise" exEndpoints none JVal.null
      (by decide) (fun r => rfl) (by decide) (by decide)).2
      ⟨ConvergeRes.noop false "Provider OS01 already exists", [], none⟩ (by decide)⟩

/-- Claim C7: on the update path the poller receives exactly the authtypes of
desired endpoints whose role is a key of Added or Updated; on the create path it
receives the authtypes of all desired endpoints. -/
theorem C7_verified_authtypes (env : Env) (provider_name provider_type : String)
    (E : List DesiredEndpoint) (zone : Option String) (P : JVal) (tr : ConvergeTrace)
    (h : add_or_update_provider env false provider_name provider_type E zone P = some tr) :
    (∀ d, truthy (find_provider_by_name env.providers provider_name) = true →
      required_updates E (env.remoteData (find_provider_by_name env.providers provider_name))
        (find_zone_by_name env.zones (zoneNameArg zone)) P = some d →
      tr.polled = some ((E.filter fun e =>
        (keysOf d.added ++ keysOf d.updated).contains e.endpoint.role).map
        fun e => e.authtype)) ∧
    (truthy (find_provider_by_name env.providers provider_name) = false →
      tr.polled = some (E.map fun e => e.authtype)) := by
  unfold add_or_update_provider at h
  dsimp only at h
  constructor
  · intro d hfound hru
    rw [if_pos hfound, hru] at h
    dsimp only at h
    split at h
    · simp at h
    · injection h with h2
      rw [← h2]
  · intro hnf
    rw [if_neg (by rw [hnf]; exact Bool.false_ne_true)] at h
    split at h
    · simp at h
    · split at h
      · simp at h
      · injection h with h2
        rw [← h2]
        have hfe : (E.filter fun e =>
            (E.map fun x => x.endpoint.role).contains e.endpoint.role) = E :=
          List.filter_eq_self.mpr
            (fun e he => List.elem_eq_true_of_mem (List.mem_map.mpr ⟨e, he, rfl⟩))
        show some ((E.filter fun e =>
            (E.map fun x => x.endpoint.role).contains e.endpoint.role).map
            fun e => e.authtype) = some (E.map fun e => e.authtype)
        rw [hfe]

/-- Witness for C7: the update trace polls exactly the authtype of the added role,
and the create trace polls every desired authtype. -/
theorem C7_verified_authtypes_witness :
    exUpdateTrace.polled = some ((exEndpoints.filter fun e =>
        (keysOf exUpdateDiff.added ++ keysOf exUpdateDiff.updated).contains e.endpoint.role).map
        fun e => e.authtype)
    ∧ exCreateTrace.polled = some (exEndpoints.map fun e => e.authtype) :=
  ⟨(C7_verified_authtypes exEnvUpdate "OS01" "openshift-enterprise" exEndpoints none JVal.null
      exUpdateTrace (by decide)).1 exUpdateDiff (by decide) (by decide),
   (C7_verified_authtypes exEnvCreate "OS01" "amazon" exEndpoints none JVal.null
      exCreateTrace (by decide)).2 (by decide)⟩

/-- Claim C1 (amended): provided no desired or current endpoint role is named
"zone_id" or "provider_region" — the scalar field names that required_updates may
inject as additional Updated keys, which otherwise collide with role keys as the
counterexample shows — the diff partitions the endpoint role keys: the key sets of
Added, Updated and Removed are pairwise disjoint, and a role present on the desired
or the current side lies in none of the three exactly when its {hostname, port}
record is identical on both sides. -/
theorem C1_partition_amended (E : List DesiredEndpoint) (R : RemoteProviderData)
    (Z P : JVal)
    (hd : ∀ e ∈ E, e.endpoint.role ≠ "zone_id" ∧ e.endpoint.role ≠ "provider_region")
    (hc : ∀ e ∈ R.endpoints, e.role ≠ "zone_id" ∧ e.role ≠ "provider_region") :
    (∀ k : String,
      ¬(k ∈ diffAddedKeys (required_updates E R Z P)
          ∧ k ∈ diffUpdatedKeys (required_updates E R Z P)) ∧
      ¬(k ∈ diffAddedKeys (required_updates E R Z P)
          ∧ k ∈ diffRemovedKeys (required_updates E R Z P)) ∧
      ¬(k ∈ diffUpdatedKeys (required_updates E R Z P)
          ∧ k ∈ diffRemovedKeys (required_updates E R Z P))) ∧
    (∀ r : String,
      containsKey (desired_by_role E) r = true ∨ containsKey (result_by_role R) r = true →
      ((r ∉ diffAddedKeys (required_updates E R Z P)
        ∧ r ∉ diffUpdatedKeys (required_updates E R Z P)
        ∧ r ∉ diffRemovedKeys (required_updates E R Z P))
        ↔ dlookup (desired_by_role E) r = dlookup (result_by_role R) r)) := by
  have hdz : containsKey (desired_by_role E) "zone_id" = false := by
    cases hx : containsKey (desired_by_role E) "zone_id" with
    | false => rfl
    | true =>
      obtain ⟨e, he, hr⟩ := containsKey_desired_role hx
      exact absurd hr (hd e he).1
  have hdp : containsKey (desired_by_role E) "provider_region" = false := by
    cases hx : containsKey (desired_by_role E) "provider_region" with
    | false => rfl
    | true =>
      obtain ⟨e, he, hr⟩ := containsKey_desired_role hx
      exact absurd hr (hd e he).2
  have hcz2 : containsKey (result_by_role R) "zone_id" = false := by
    cases hx : containsKey (result_by_role R) "zone_id" with
    | false => rfl
    | true =>
      obtain ⟨e, he, hr⟩ := containsKey_result_role hx
      exact absurd hr (hc e he).1
  have hcp2 : containsKey (result_by_role R) "provider_region" = false := by
    cases hx : containsKey (result_by_role R) "provider_region" with
    | false => rfl
    | true =>
      obtain ⟨e, he, hr⟩ := containsKey_result_role hx
      exact absurd hr (hc e he).2
  by_cases hcond : (dictEq (result_by_role R) (desired_by_role E) && decide (R.zone_id = Z)
      && decide (orNone R.provider_region = P)) = true
  · have hnone : required_updates E R Z P = none := by
      unfold required_updates
      dsimp only
      rw [if_pos hcond]
    have hdeq : dictEq (result_by_role R) (desired_by_role E) = true := by
      rw [Bool.and_eq_true, Bool.and_eq_true] at hcond
      exact hcond.1.1
    have hlk := (dictEq_iff_lookup_eq (keysOf_result_nodup R) (keysOf_desired_nodup E)).mp hdeq
    rw [hnone]
    constructor
    · intro k
      simp [diffAddedKeys, diffUpdatedKeys, diffRemovedKeys]
    · intro r _
      simp only [diffAddedKeys, diffUpdatedKeys, diffRemovedKeys]
      constructor
      · intro _
        exact (hlk r).symm
      · intro _
        simp
  · have hsome := required_updates_eq_some E R Z P (by simpa using hcond)
    have hAdd : ∀ k, k ∈ diffAddedKeys (required_updates E R Z P)
        ↔ (containsKey (desired_by_role E) k = true
            ∧ containsKey (result_by_role R) k = false) := by
      intro k
      rw [hsome]
      simp only [diffAddedKeys]
      rw [← containsKey_iff_mem_keysOf]
      exact containsKey_added_endpoints
    have hRem : ∀ k, k ∈ diffRemovedKeys (required_updates E R Z P)
        ↔ (containsKey (result_by_role R) k = true
            ∧ containsKey (desired_by_role E) k = false) := by
      intro k
      rw [hsome]
      simp only [diffRemovedKeys]
      rw [← containsKey_iff_mem_keysOf]
      exact containsKey_removed_endpoints
    have hUpdNe : ∀ k, k ≠ "zone_id" → k ≠ "provider_region" →
        (k ∈ diffUpdatedKeys (required_updates E R Z P)
          ↔ containsKey (updated_endpoints (desired_by_role E) (result_by_role R)) k
              = true) := by
      intro k hkz hkp
      rw [hsome]
      simp only [diffUpdatedKeys]
      rw [← containsKey_iff_mem_keysOf, containsKey_scalar_wrap _ _ _ _ _ k hkz hkp]
    have hUpdCases : ∀ k, k ∈ diffUpdatedKeys (required_updates E R Z P) →
        containsKey (updated_endpoints (desired_by_role E) (result_by_role R)) k = true
          ∨ k = "zone_id" ∨ k = "provider_region" := by
      intro k hk
      rw [hsome] at hk
      simp only [diffUpdatedKeys] at hk
      exact containsKey_scalar_wrap_cases _ _ _ _ _ k (containsKey_iff_mem_keysOf.mpr hk)
    constructor
    · intro k
      refine ⟨?_, ?_, ?_⟩
      · rintro ⟨hka, hku⟩
        rw [hAdd] at hka
        obtain ⟨hka1, hka2⟩ := hka
        rcases hUpdCases k hku with hbase | hkz | hkp
        · rw [containsKey_updated_endpoints] at hbase
          obtain ⟨v, w, _, hw, _⟩ := hbase
          have hck : containsKey (result_by_role R) k = true := by
            unfold containsKey; rw [hw]; rfl
          rw [hka2] at hck
          exact Bool.false_ne_true hck
        · subst hkz
          rw [hdz] at hka1
          exact Bool.false_ne_true hka1
        · subst hkp
          rw [hdp] at hka1
          exact Bool.false_ne_true hka1
      · rintro ⟨hka, hkr⟩
        rw [hAdd] at hka
        rw [hRem] at hkr
        rw [hkr.2] at hka
        exact Bool.false_ne_true hka.1
      · rintro ⟨hku, hkr⟩
        rw [hRem] at hkr
        obtain ⟨hkr1, hkr2⟩ := hkr
        rcases hUpdCases k hku with hbase | hkz | hkp
        · rw [containsKey_updated_endpoints] at hbase
          obtain ⟨v, w, hv, _, _⟩ := hbase
          have hdk : containsKey (desired_by_role E) k = true := by
            unfold containsKey; rw [hv]; rfl
          rw [hkr2] at hdk
          exact Bool.false_ne_true hdk
        · subst hkz
          rw [hcz2] at hkr1
          exact Bool.false_ne_true hkr1
        · subst hkp
          rw [hcp2] at hkr1
          exact Bool.false_ne_true hkr1
    · intro r hr
      have hrnz : r ≠ "zone_id" := by
        intro he
        subst he
        rcases hr with h1 | h1
        · rw [hdz] at h1; exact Bool.false_ne_true h1
        · rw [hcz2] at h1; exact Bool.false_ne_true h1
      have hrnp : r ≠ "provider_region" := by
        intro he
        subst he
        rcases hr with h1 | h1
        · rw [hdp] at h1; exact Bool.false_ne_true h1
        · rw [hcp2] at h1; exact Bool.false_ne_true h1
      rw [hAdd r, hRem r, hUpdNe r hrnz hrnp]
      constructor
      · rintro ⟨hna, hnu, hnr⟩
        cases hdes : dlookup (desired_by_role E) r with
        | none =>
          cases hcur : dlookup (result_by_role R) r with
          | none => rfl
          | some w =>
            exact absurd ⟨by unfold containsKey; rw [hcur]; rfl,
              by unfold containsKey; rw [hdes]; rfl⟩ hnr
        | some v =>
          cases hcur : dlookup (result_by_role R) r with
          | none =>
            exact absurd ⟨by unfold containsKey; rw [hdes]; rfl,
              by unfold containsKey; rw [hcur]; rfl⟩ hna
          | some w =>
            have hde : dictEq v w = true := by
              cases hx : dictEq v w with
              | true => rfl
              | false =>
                exfalso
                apply hnu
                rw [containsKey_updated_endpoints]
                exact ⟨v, w, hdes, hcur, hx⟩
            obtain ⟨e1, _, hv1, _⟩ := lookup_desired_host_port hdes
            obtain ⟨e2, _, hv2, _⟩ := lookup_result_host_port hcur
            rw [hv1, hv2] at hde
            rw [dictEq_host_port] at hde
            rw [hv1, hv2, hde]
      · intro hlkr
        refine ⟨?_, ?_, ?_⟩
        · rintro ⟨h1, h2⟩
          unfold containsKey at h1 h2
          cases hdes : dlookup (desired_by_role E) r with
          | none => rw [hdes] at h1; simp at h1
          | some v =>
            rw [hlkr] at hdes
            rw [hdes] at h2
            simp at h2
        · intro hu
          rw [containsKey_updated_endpoints] at hu
          obtain ⟨v, w, hv, hw, hfalse⟩ := hu
          rw [hlkr] at hv
          rw [hv] at hw
          injection hw with hvw
          obtain ⟨e1, _, hv1, _⟩ := lookup_result_host_port hv
          rw [← hvw] at hfalse
          rw [hv1] at hfalse
          rw [(dictEq_host_port e1 e1).mpr rfl] at hfalse
          simp at hfalse
        · rintro ⟨h1, h2⟩
          unfold containsKey at h1 h2
          cases hcur : dlookup (result_by_role R) r with
          | none => rw [hcur] at h1; simp at h1
          | some w =>
            rw [← hlkr] at hcur
            rw [hcur] at h2
            simp at h2

/-- Witness for the amended C1 at a concrete input with one added and one removed
role: the key sets are disjoint at "default", and "metrics" (present only remotely,
hence in Removed) is excluded from the three partitions exactly as its records
differ. -/
theorem C1_partition_amended_witness :
    ¬("default" ∈ diffAddedKeys (required_updates exC1E exC1R (JVal.i 1) JVal.null)
        ∧ "default" ∈ diffUpdatedKeys (required_updates exC1E exC1R (JVal.i 1) JVal.null)) ∧
    (("metrics" ∉ diffAddedKeys (required_updates exC1E exC1R (JVal.i 1) JVal.null)
      ∧ "metrics" ∉ diffUpdatedKeys (required_updates exC1E exC1R (JVal.i 1) JVal.null)
      ∧ "metrics" ∉ diffRemovedKeys (required_updates exC1E exC1R (JVal.i 1) JVal.null))
      ↔ dlookup (desired_by_role exC1E) "metrics" = dlookup (result_by_role exC1R) "metrics") :=
  ⟨((C1_partition_amended exC1E exC1R (JVal.i 1) JVal.null (by decide) (by decide)).1
      "default").1,
   (C1_partition_amended exC1E exC1R (JVal.i 1) JVal.null (by decide) (by decide)).2
      "metrics" (Or.inr (by decide))⟩

/-- Counterexample to claim C1 as stated: with a desired endpoint whose role is the
string "zone_id", absent remotely, and a zone change, the key "zone_id" lands in
both the Added and the Updated partitions, so the three key sets are not pairwise
disjoint. -/
theorem C1_counterexample :
    "zone_id" ∈ diffAddedKeys (required_updates [⟨⟨"zone_id", JVal.s "h", JVal.i 1⟩, "bearer"⟩]
        ⟨[], JVal.i 1, JVal.null⟩ (JVal.i 2) JVal.null) ∧
    "zone_id" ∈ diffUpdatedKeys (required_updates [⟨⟨"zone_id", JVal.s "h", JVal.i 1⟩, "bearer"⟩]
        ⟨[], JVal.i 1, JVal.null⟩ (JVal.i 2) JVal.null) := by
  constructor <;> decide

end ManageIQ
